import Mathlib

/-!
Shallow embedding of `src/main.py`: string-encoded facts, the six axiom
functions of the knowledge base, and the forward-chaining solver
`solve_forward_chaining`.

Python sets of fact strings are modelled as `Finset String`.  The Python
string operations used by the code (`startswith`, slicing `[k:-1]`,
`split(',')`, `strip()`, lexicographic comparison in `sorted`) are modelled
by structurally recursive functions on the character list of a `String`,
so that everything evaluates inside the kernel.

A Python `set` iterates in an unspecified order.  Each axiom function is
therefore given in two forms that are proved to agree on every enumeration:
a `_core` form taking an explicit enumeration list of the fact set (the
iteration order), and the official form on `Finset String` defined through
the underlying multiset, which is order-independent by construction.
-/

namespace MathAI

/-- `pre` is a prefix of the character list (Python `startswith` on the
underlying characters). -/
def prefixCheck : List Char → List Char → Bool
  | [], _ => true
  | _ :: _, [] => false
  | a :: as, b :: bs => a = b && prefixCheck as bs

/-- `fact.startswith(pred)`. -/
def strStartsWith (fact pred : String) : Bool :=
  prefixCheck pred.data fact.data

/-- Python slice `s[k:-1]`: drop the first `k` characters and the last one. -/
def sliceDropLast (k : Nat) (s : String) : String :=
  String.mk ((s.data.drop k).dropLast)

/-- Splitting a character list at every `','` (Python `split(',')`). -/
def splitCommaAux : List Char → List Char → List (List Char)
  | [], acc => [acc.reverse]
  | c :: cs, acc =>
    if c = ',' then acc.reverse :: splitCommaAux cs []
    else splitCommaAux cs (c :: acc)

/-- `content.split(',')`. -/
def splitComma (s : String) : List String :=
  (splitCommaAux s.data []).map String.mk

/-- Whitespace stripped by Python `strip()` (ASCII range). -/
def isSpace (c : Char) : Bool :=
  c = ' ' || c = '\t' || c = '\n' || c = '\r' || c.toNat = 11 || c.toNat = 12

/-- `s.strip()`: remove leading and trailing whitespace. -/
def strTrim (s : String) : String :=
  String.mk (((s.data.dropWhile isSpace).reverse.dropWhile isSpace).reverse)

/-- Python `<=` on strings: lexicographic comparison by code point. -/
def charsLe : List Char → List Char → Bool
  | [], _ => true
  | _ :: _, [] => false
  | a :: as, b :: bs =>
    if a.toNat < b.toNat then true
    else if b.toNat < a.toNat then false
    else charsLe as bs

/-- `a <= b` for the `sorted` call of `axiom10_sibling_shared_parent`. -/
def strLe (a b : String) : Bool :=
  charsLe a.data b.data

/-- `parts = content.split(','); if len(parts) == 2:` — both parts stripped
(`parts[0].strip(), parts[1].strip()`). -/
def splitTwo (content : String) : Option (String × String) :=
  match splitComma content with
  | [a, b] => some (strTrim a, strTrim b)
  | _ => none

/-- `fact.startswith(pred)` followed by `fact[len(pred):-1].split(',')` with
exactly two parts, stripped; `pred` includes the opening parenthesis,
e.g. `"Parent("`. -/
def parseArgs2 (pred fact : String) : Option (String × String) :=
  if strStartsWith fact pred then splitTwo (sliceDropLast pred.length fact)
  else none

/-- Builds `f"{pred}({a},{b})"`. -/
def mkFact2 (pred a b : String) : String :=
  pred ++ "(" ++ a ++ "," ++ b ++ ")"

/-- Builds `f"{pred}({a})"`. -/
def mkFact1 (pred a : String) : String :=
  pred ++ "(" ++ a ++ ")"

/-- `if new_fact not in facts: new_facts.add(new_fact)` — the candidate fact
is kept only when the membership test `mem` (against the queried fact
collection) fails. -/
def checkNew (mem : String → Bool) (nf : String) : Option String :=
  if mem nf then none else some nf

/-- Membership in an enumeration list of the fact set. -/
def memList (l : List String) : String → Bool :=
  fun nf => decide (nf ∈ l)

/-- Membership in the fact set itself. -/
def memSet (facts : Finset String) : String → Bool :=
  fun nf => decide (nf ∈ facts)

/-- Body of `axiom1_parent_ancestor` for one fact of the iterated set:
`Parent(x, y)` yields `Ancestor(x,y)` when new. -/
def axiom1_derive (mem : String → Bool) (fact : String) : Option String :=
  match parseArgs2 "Parent(" fact with
  | some p => checkNew mem (mkFact2 "Ancestor" p.1 p.2)
  | none => none

/-- `axiom1_parent_ancestor` over an enumeration `l` of the fact set:
`∀x,y (Parent(x, y) → Ancestor(x, y))`. -/
def axiom1_core (l : List String) : List String :=
  l.filterMap (axiom1_derive (memList l))

/-- `axiom1_parent_ancestor` as a function on fact sets. -/
def axiom1_parent_ancestor (facts : Finset String) : Finset String :=
  (Multiset.filterMap (axiom1_derive (memSet facts)) facts.val).toFinset

/-- The `ancestor_pairs` list of `axiom2_ancestor_transitive`. -/
def ancestorPairs (l : List String) : List (String × String) :=
  l.filterMap (parseArgs2 "Ancestor(")

/-- Inner double loop body of `axiom2_ancestor_transitive`: from
`Ancestor(x, y1)` and `Ancestor(y2, z)` with `y1 == y2`, derive
`Ancestor(x,z)` when new. -/
def axiom2_derive (mem : String → Bool) (p q : String × String) : Option String :=
  if p.2 = q.1 then checkNew mem (mkFact2 "Ancestor" p.1 q.2) else none

/-- `axiom2_ancestor_transitive` over an enumeration `l`:
`∀x,y,z (Ancestor(x, y) ∧ Ancestor(y, z) → Ancestor(x, z))`. -/
def axiom2_core (l : List String) : List String :=
  (ancestorPairs l).flatMap fun p =>
    (ancestorPairs l).filterMap (axiom2_derive (memList l) p)

/-- `axiom2_ancestor_transitive` as a function on fact sets. -/
def axiom2_ancestor_transitive (facts : Finset String) : Finset String :=
  ((facts.val.filterMap (parseArgs2 "Ancestor(")).bind fun p =>
    (facts.val.filterMap (parseArgs2 "Ancestor(")).filterMap
      (axiom2_derive (memSet facts) p)).toFinset

/-- Body of `axiom5_ancestor_hasdna` for one fact. -/
def axiom5_derive (mem : String → Bool) (fact : String) : Option String :=
  match parseArgs2 "Ancestor(" fact with
  | some p => checkNew mem (mkFact2 "HasDNA" p.1 p.2)
  | none => none

/-- `axiom5_ancestor_hasdna` over an enumeration `l`:
`∀x,y (Ancestor(x, y) → HasDNA(x, y))`. -/
def axiom5_core (l : List String) : List String :=
  l.filterMap (axiom5_derive (memList l))

/-- `axiom5_ancestor_hasdna` as a function on fact sets. -/
def axiom5_ancestor_hasdna (facts : Finset String) : Finset String :=
  (Multiset.filterMap (axiom5_derive (memSet facts)) facts.val).toFinset

/-- One fact's contribution to the `is_famous_people` list of
`axiom8_dna_famous_trait`; the `elif` branch runs only when the `HasDNA(`
test failed, and takes `fact[9:-1].strip()`. -/
def famousCheck (fact : String) : Option String :=
  if !strStartsWith fact "HasDNA(" && strStartsWith fact "IsFamous(" then
    some (strTrim (sliceDropLast 9 fact))
  else none

/-- Inner double loop body of `axiom8_dna_famous_trait`: from
`HasDNA(x, y)` with `x` famous, derive `MightInheritTrait(y)` when new. -/
def axiom8_derive (mem : String → Bool) (famous : String) (d : String × String) :
    Option String :=
  if d.1 = famous then checkNew mem (mkFact1 "MightInheritTrait" d.2) else none

/-- `axiom8_dna_famous_trait` over an enumeration `l`:
`∀x,y (HasDNA(x, y) ∧ IsFamous(x) → MightInheritTrait(y))`. -/
def axiom8_core (l : List String) : List String :=
  (l.filterMap famousCheck).flatMap fun famous =>
    (l.filterMap (parseArgs2 "HasDNA(")).filterMap
      (axiom8_derive (memList l) famous)

/-- `axiom8_dna_famous_trait` as a function on fact sets. -/
def axiom8_dna_famous_trait (facts : Finset String) : Finset String :=
  ((facts.val.filterMap famousCheck).bind fun famous =>
    (facts.val.filterMap (parseArgs2 "HasDNA(")).filterMap
      (axiom8_derive (memSet facts) famous)).toFinset

/-- One fact's contribution to the `existing_shared_parents` set of
`axiom10_sibling_shared_parent`: for facts starting with
`"Parent(SharedParent_"`, the stripped first component of
`fact[7:-1].split(',')` when it has two parts. -/
def sharedParentCheck (fact : String) : Option String :=
  if strStartsWith fact "Parent(SharedParent_" then
    match splitComma (sliceDropLast 7 fact) with
    | [a, _b] => some (strTrim a)
    | _ => none
  else none

/-- One fact's contribution to the sibling pairs of
`axiom10_sibling_shared_parent`: `x, y = sorted(...)` on the parsed,
stripped components of a `Sibling(` fact. -/
def siblingCheck (fact : String) : Option (String × String) :=
  (parseArgs2 "Sibling(" fact).map fun p =>
    if strLe p.1 p.2 then p else (p.2, p.1)

/-- Facts contributed by one (not yet processed) sorted sibling pair:
nothing if the shared parent name is already known, else the up to two
`Parent(SharedParent_x_y, _)` facts that are not yet in the fact set. -/
def axiom10_derive (mem sp : String → Bool) (p : String × String) : List String :=
  if sp ("SharedParent_" ++ p.1 ++ "_" ++ p.2) then []
  else
    (checkNew mem (mkFact2 "Parent" ("SharedParent_" ++ p.1 ++ "_" ++ p.2) p.1)).toList ++
      (checkNew mem (mkFact2 "Parent" ("SharedParent_" ++ p.1 ++ "_" ++ p.2) p.2)).toList

/-- `axiom10_sibling_shared_parent` over an enumeration `l`:
`∀x,y (Sibling(x,y) → ∃z (Parent(z,x) ∧ Parent(z,y)))`; the
`processed_siblings` bookkeeping processes each sorted pair once. -/
def axiom10_core (l : List String) : List String :=
  (l.filterMap siblingCheck).dedup.flatMap
    (axiom10_derive (memList l) (memList (l.filterMap sharedParentCheck)))

/-- `axiom10_sibling_shared_parent` as a function on fact sets. -/
def axiom10_sibling_shared_parent (facts : Finset String) : Finset String :=
  ((facts.val.filterMap siblingCheck).dedup.bind fun p =>
    (axiom10_derive (memSet facts)
      (fun nm => decide (nm ∈ facts.val.filterMap sharedParentCheck)) p :
        List String)).toFinset

/-- Body of `axiom11_hasdna_symmetric` for one fact. -/
def axiom11_derive (mem : String → Bool) (fact : String) : Option String :=
  match parseArgs2 "HasDNA(" fact with
  | some p => checkNew mem (mkFact2 "HasDNA" p.2 p.1)
  | none => none

/-- `axiom11_hasdna_symmetric` over an enumeration `l`:
`∀x,y (HasDNA(x, y) → HasDNA(y, x))`. -/
def axiom11_core (l : List String) : List String :=
  l.filterMap (axiom11_derive (memList l))

/-- `axiom11_hasdna_symmetric` as a function on fact sets. -/
def axiom11_hasdna_symmetric (facts : Finset String) : Finset String :=
  (Multiset.filterMap (axiom11_derive (memSet facts)) facts.val).toFinset

/-- The `axioms` list of the script (the lemma function is not included). -/
def axioms : List (Finset String → Finset String) :=
  [axiom1_parent_ancestor, axiom2_ancestor_transitive, axiom5_ancestor_hasdna,
    axiom8_dna_famous_trait, axiom10_sibling_shared_parent, axiom11_hasdna_symmetric]

/-- The `initial_facts` set of the script. -/
def initial_facts : Finset String :=
  {"Person(Alice)", "Person(Bob)", "Person(Charles)", "Parent(Alice, Bob)",
    "Sibling(Bob, Charles)", "IsFamous(Alice)"}

/-- The `goal` string of the script. -/
def goal : String := "MightInheritTrait(Charles)"

/-- One depth of the solver's inner loop: every axiom function is applied to
the same snapshot `known` and the genuinely new facts
(`derived_by_axiom - known_facts`) are accumulated
(`newly_derived_facts_this_step`). -/
def derivedStep (axs : List (Finset String → Finset String)) (known : Finset String) :
    Finset String :=
  axs.foldl (fun acc ax => acc ∪ (ax known \ known)) ∅

/-- One full batch-saturation round: the fact set together with everything the
axioms derive from it (`known_facts.update(newly_derived_facts_this_step)`). -/
def satStep (axs : List (Finset String → Finset String)) (s : Finset String) :
    Finset String :=
  s ∪ derivedStep axs s

/-- The `for depth in range(current_depth, max_depth)` loop of
`solve_forward_chaining`; `fuel` is the number of remaining range values,
`depth` the current range value, `iters` the `iterations` counter and `fdr`
the `final_depth_reached` variable.  Each iteration first checks the
iteration cap, sets `final_depth_reached = depth + 1`, derives the batch of
new facts, and then breaks on a fixed point, returns on deriving the goal,
or unions the new facts into `known` and continues; after the loop the
returned `solved` flag is the membership of the goal in `known`. -/
def solveAux (axs : List (Finset String → Finset String)) (g : String) (maxI : Nat) :
    Nat → Finset String → Nat → Nat → Nat → Bool × Finset String × Nat
  | 0, known, _depth, _iters, fdr => (decide (g ∈ known), known, fdr)
  | fuel + 1, known, depth, iters, fdr =>
    if maxI ≤ iters then (decide (g ∈ known), known, fdr)
    else if derivedStep axs known = ∅ then (decide (g ∈ known), known, depth + 1)
    else if g ∈ derivedStep axs known then
      (true, known ∪ derivedStep axs known, depth + 1)
    else solveAux axs g maxI fuel (known ∪ derivedStep axs known) (depth + 1)
      (iters + 1) (depth + 1)

/-- `solve_forward_chaining(axioms_to_use, initial_facts_state, target_goal,
max_depth, max_iterations, current_depth)`: returns the
`(solved, final_facts, final_depth_reached)` triple. -/
def solve_forward_chaining (axs : List (Finset String → Finset String))
    (initial_facts_state : Finset String) (target_goal : String)
    (max_depth max_iterations current_depth : Nat) : Bool × Finset String × Nat :=
  solveAux axs target_goal max_iterations (max_depth - current_depth)
    initial_facts_state current_depth 0 current_depth

/-- Default of the `max_iterations` keyword parameter in the source. -/
def max_iterations_default : Nat := 30

/-- `solve_forward_chaining` with the defaults `max_iterations=30`,
`current_depth=0` supplied, as in the script's calls. -/
def solve_forward_chaining_defaults (axs : List (Finset String → Finset String))
    (initial_facts_state : Finset String) (target_goal : String) (max_depth : Nat) :
    Bool × Finset String × Nat :=
  solve_forward_chaining axs initial_facts_state target_goal max_depth
    max_iterations_default 0

/-- `enum` enumerates every fact set: its list has exactly the members of
the set (this is all an iteration order of a Python `set` guarantees). -/
def validEnum (enum : Finset String → List String) : Prop :=
  ∀ s x, x ∈ enum s ↔ x ∈ s

/-- The six axiom functions computed by iterating over the enumeration
`enum` of the fact set. -/
def axiomsWith (enum : Finset String → List String) :
    List (Finset String → Finset String) :=
  [fun s => (axiom1_core (enum s)).toFinset,
    fun s => (axiom2_core (enum s)).toFinset,
    fun s => (axiom5_core (enum s)).toFinset,
    fun s => (axiom8_core (enum s)).toFinset,
    fun s => (axiom10_core (enum s)).toFinset,
    fun s => (axiom11_core (enum s)).toFinset]

/-- Modelled from the spec: the spec's driver interface "returns ...
(ordered list of applied rules, final state, step count)" and a `Path` is
"an ordered sequence of Rule references"; applying such a sequence applies
one inference rule per step, accumulating its conclusions into the state.
`src/main.py` returns no such sequence, so this definition follows the
spec's words in order to state claim C2 about derivation sequences. -/
def applyRuleSeq_spec (seq : List (Finset String → Finset String))
    (s : Finset String) : Finset String :=
  seq.foldl (fun st ax => st ∪ ax st) s

/-- All sequences of at most `n` rules drawn from `axs` (with repetition). -/
def seqsUpTo : Nat → List (Finset String → Finset String) →
    List (List (Finset String → Finset String))
  | 0, _ => [[]]
  | n + 1, axs => [] :: axs.flatMap fun a => (seqsUpTo n axs).map (a :: ·)

/-! ### Helper lemmas -/

theorem checkNew_some {mem : String → Bool} {nf a : String}
    (h : checkNew mem nf = some a) : a = nf ∧ mem a = false := by
  unfold checkNew at h
  by_cases hm : mem nf
  · simp [hm] at h
  · simp [hm] at h
    subst h
    exact ⟨rfl, by simpa using hm⟩

theorem axiom1_derive_fresh {mem : String → Bool} {fact a : String}
    (h : axiom1_derive mem fact = some a) : mem a = false := by
  unfold axiom1_derive at h
  rcases hp : parseArgs2 "Parent(" fact with _ | p <;> rw [hp] at h
  · exact absurd h (by simp)
  · exact (checkNew_some h).2

theorem axiom2_derive_fresh {mem : String → Bool} {p q : String × String} {a : String}
    (h : axiom2_derive mem p q = some a) : mem a = false := by
  unfold axiom2_derive at h
  by_cases hpq : p.2 = q.1
  · rw [if_pos hpq] at h
    exact (checkNew_some h).2
  · rw [if_neg hpq] at h
    exact absurd h (by simp)

theorem axiom5_derive_fresh {mem : String → Bool} {fact a : String}
    (h : axiom5_derive mem fact = some a) : mem a = false := by
  unfold axiom5_derive at h
  rcases hp : parseArgs2 "Ancestor(" fact with _ | p <;> rw [hp] at h
  · exact absurd h (by simp)
  · exact (checkNew_some h).2

theorem axiom8_derive_fresh {mem : String → Bool} {famous : String}
    {d : String × String} {a : String}
    (h : axiom8_derive mem famous d = some a) : mem a = false := by
  unfold axiom8_derive at h
  by_cases hd : d.1 = famous
  · rw [if_pos hd] at h
    exact (checkNew_some h).2
  · rw [if_neg hd] at h
    exact absurd h (by simp)

theorem axiom10_derive_fresh {mem sp : String → Bool} {p : String × String} {a : String}
    (h : a ∈ axiom10_derive mem sp p) : mem a = false := by
  unfold axiom10_derive at h
  by_cases hs : sp ("SharedParent_" ++ p.1 ++ "_" ++ p.2)
  · rw [if_pos hs] at h
    exact absurd h (by simp)
  · rw [if_neg hs] at h
    rcases List.mem_append.1 h with h1 | h1 <;>
      rcases Option.mem_toList.1 h1 with h2 <;>
      exact (checkNew_some h2).2

theorem axiom11_derive_fresh {mem : String → Bool} {fact a : String}
    (h : axiom11_derive mem fact = some a) : mem a = false := by
  unfold axiom11_derive at h
  rcases hp : parseArgs2 "HasDNA(" fact with _ | p <;> rw [hp] at h
  · exact absurd h (by simp)
  · exact (checkNew_some h).2

theorem memSet_eq_false {facts : Finset String} {a : String}
    (h : memSet facts a = false) : a ∉ facts := by
  simpa [memSet] using h

theorem mem_foldl_union (axs : List (Finset String → Finset String))
    (known : Finset String) (acc : Finset String) (x : String) :
    (x ∈ axs.foldl (fun acc ax => acc ∪ (ax known \ known)) acc ↔
      x ∈ acc ∨ ∃ ax ∈ axs, x ∈ ax known ∧ x ∉ known) := by
  induction axs generalizing acc with
  | nil => simp
  | cons a as ih =>
    simp only [List.foldl_cons, ih, Finset.mem_union, Finset.mem_sdiff, List.mem_cons]
    constructor
    · rintro (((h | ⟨h1, h2⟩) | ⟨ax, hax, h1, h2⟩))
      · exact Or.inl h
      · exact Or.inr ⟨a, Or.inl rfl, h1, h2⟩
      · exact Or.inr ⟨ax, Or.inr hax, h1, h2⟩
    · rintro (h | ⟨ax, (rfl | hax), h1, h2⟩)
      · exact Or.inl (Or.inl h)
      · exact Or.inl (Or.inr ⟨h1, h2⟩)
      · exact Or.inr ⟨ax, hax, h1, h2⟩

theorem mem_derivedStep {axs : List (Finset String → Finset String)}
    {known : Finset String} {x : String} :
    x ∈ derivedStep axs known ↔ ∃ ax ∈ axs, x ∈ ax known ∧ x ∉ known := by
  unfold derivedStep
  rw [mem_foldl_union]
  simp

theorem derivedStep_perm {axs₁ axs₂ : List (Finset String → Finset String)}
    (h : axs₁.Perm axs₂) (s : Finset String) :
    derivedStep axs₁ s = derivedStep axs₂ s := by
  ext x
  simp only [mem_derivedStep]
  constructor <;> rintro ⟨ax, hax, h1, h2⟩
  · exact ⟨ax, h.mem_iff.1 hax, h1, h2⟩
  · exact ⟨ax, h.mem_iff.2 hax, h1, h2⟩

theorem solveAux_superset (axs : List (Finset String → Finset String))
    (g : String) (maxI : Nat) :
    ∀ fuel known depth iters fdr,
      known ⊆ (solveAux axs g maxI fuel known depth iters fdr).2.1 := by
  intro fuel
  induction fuel with
  | zero =>
    intro known depth iters fdr
    simp [solveAux]
  | succ n ih =>
    intro known depth iters fdr
    simp only [solveAux]
    split_ifs with h1 h2 h3
    · exact Finset.Subset.refl _
    · exact Finset.Subset.refl _
    · exact Finset.subset_union_left
    · exact Finset.subset_union_left.trans (ih _ _ _ _)

theorem solveAux_solved_iff (axs : List (Finset String → Finset String))
    (g : String) (maxI : Nat) :
    ∀ fuel known depth iters fdr,
      (solveAux axs g maxI fuel known depth iters fdr).1 =
        decide (g ∈ (solveAux axs g maxI fuel known depth iters fdr).2.1) := by
  intro fuel
  induction fuel with
  | zero =>
    intro known depth iters fdr
    simp [solveAux]
  | succ n ih =>
    intro known depth iters fdr
    simp only [solveAux]
    split_ifs with h1 h2 h3
    · rfl
    · rfl
    · exact (decide_eq_true (Finset.mem_union_right _ h3)).symm
    · exact ih _ _ _ _

theorem solveAux_mem_true (axs : List (Finset String → Finset String))
    (g : String) (maxI : Nat) :
    ∀ fuel known depth iters fdr, g ∈ known →
      (solveAux axs g maxI fuel known depth iters fdr).1 = true := by
  intro fuel
  induction fuel with
  | zero =>
    intro known depth iters fdr hg
    simp [solveAux, hg]
  | succ n ih =>
    intro known depth iters fdr hg
    simp only [solveAux]
    split_ifs with h1 h2 h3
    · exact decide_eq_true hg
    · exact decide_eq_true hg
    · rfl
    · exact ih _ _ _ _ (Finset.mem_union_left _ hg)

theorem solveAux_depth_bounds (axs : List (Finset String → Finset String))
    (g : String) (maxI : Nat) :
    ∀ fuel known depth iters fdr, fdr ≤ depth →
      (fdr ≤ (solveAux axs g maxI fuel known depth iters fdr).2.2 ∧
        (solveAux axs g maxI fuel known depth iters fdr).2.2 ≤ depth + fuel ∧
        (solveAux axs g maxI fuel known depth iters fdr).2.2 ≤ depth + (maxI - iters)) := by
  intro fuel
  induction fuel with
  | zero =>
    intro known depth iters fdr h
    simp only [solveAux]
    omega
  | succ n ih =>
    intro known depth iters fdr h
    simp only [solveAux]
    split_ifs with h1 h2 h3
    · dsimp only
      omega
    · dsimp only
      omega
    · dsimp only
      omega
    · have := ih (known ∪ derivedStep axs known) (depth + 1) (iters + 1) (depth + 1)
        (Nat.le_refl _)
      omega

theorem solveAux_sat_iterate (axs : List (Finset String → Finset String))
    (g : String) (maxI : Nat) :
    ∀ fuel known depth iters fdr, ∃ k, k ≤ fuel ∧ k ≤ maxI - iters ∧
      (solveAux axs g maxI fuel known depth iters fdr).2.1 = (satStep axs)^[k] known := by
  intro fuel
  induction fuel with
  | zero =>
    intro known depth iters fdr
    exact ⟨0, Nat.le_refl _, Nat.zero_le _, by simp [solveAux]⟩
  | succ n ih =>
    intro known depth iters fdr
    simp only [solveAux]
    split_ifs with h1 h2 h3
    · exact ⟨0, Nat.zero_le _, Nat.zero_le _, by simp⟩
    · exact ⟨0, Nat.zero_le _, Nat.zero_le _, by simp⟩
    · exact ⟨1, by omega, by omega, by simp [satStep]⟩
    · obtain ⟨k, hk1, hk2, heq⟩ := ih (known ∪ derivedStep axs known) (depth + 1)
        (iters + 1) (depth + 1)
      refine ⟨k + 1, by omega, by omega, ?_⟩
      rw [Function.iterate_succ_apply]
      exact heq

theorem solveAux_fixed_point (axs : List (Finset String → Finset String))
    (g : String) (maxI : Nat) :
    ∀ fuel known depth iters,
      (solveAux axs g maxI fuel known depth iters depth).1 = false →
      (solveAux axs g maxI fuel known depth iters depth).2.2 < depth + fuel →
      (solveAux axs g maxI fuel known depth iters depth).2.2 < depth + (maxI - iters) →
      derivedStep axs (solveAux axs g maxI fuel known depth iters depth).2.1 = ∅ := by
  intro fuel
  induction fuel with
  | zero =>
    intro known depth iters _ hlt _
    simp only [solveAux] at hlt
    omega
  | succ n ih =>
    intro known depth iters hfalse hlt1 hlt2
    simp only [solveAux] at hfalse hlt1 hlt2 ⊢
    split_ifs at hfalse hlt1 hlt2 ⊢ with h1 h2 h3
    · dsimp only at hlt2
      omega
    · exact h2
    · exact ih (known ∪ derivedStep axs known) (depth + 1) (iters + 1) hfalse
        (by omega) (by omega)

theorem solveAux_success_min (axs : List (Finset String → Finset String))
    (g : String) (maxI : Nat) :
    ∀ fuel known depth iters, g ∉ known →
      (solveAux axs g maxI fuel known depth iters depth).1 = true →
      ((solveAux axs g maxI fuel known depth iters depth).2.1 =
          (satStep axs)^[(solveAux axs g maxI fuel known depth iters depth).2.2 - depth]
            known ∧
        g ∈ (solveAux axs g maxI fuel known depth iters depth).2.1 ∧
        ∀ j, j < (solveAux axs g maxI fuel known depth iters depth).2.2 - depth →
          g ∉ (satStep axs)^[j] known) := by
  intro fuel
  induction fuel with
  | zero =>
    intro known depth iters hg htrue
    simp only [solveAux] at htrue
    exact absurd htrue (by simp [hg])
  | succ n ih =>
    intro known depth iters hg htrue
    simp only [solveAux] at htrue ⊢
    split_ifs at htrue ⊢ with h1 h2 h3
    · exact absurd htrue (by simp [hg])
    · exact absurd htrue (by simp [hg])
    · refine ⟨by simp [satStep], Finset.mem_union_right _ h3, ?_⟩
      intro j hj
      dsimp only at hj
      have hj0 : j = 0 := by omega
      subst hj0
      simpa using hg
    · have hg2 : g ∉ known ∪ derivedStep axs known := by
        simp only [Finset.mem_union]
        rintro (h | h)
        · exact hg h
        · exact h3 h
      have hge := (solveAux_depth_bounds axs g maxI n
        (known ∪ derivedStep axs known) (depth + 1) (iters + 1) (depth + 1)
        (Nat.le_refl _)).1
      obtain ⟨heq, hmem, hmin⟩ := ih (known ∪ derivedStep axs known) (depth + 1)
        (iters + 1) hg2 htrue
      refine ⟨?_, hmem, ?_⟩
      · rw [heq]
        have hsub : (solveAux axs g maxI n (known ∪ derivedStep axs known) (depth + 1)
            (iters + 1) (depth + 1)).2.2 - depth =
            ((solveAux axs g maxI n (known ∪ derivedStep axs known) (depth + 1)
              (iters + 1) (depth + 1)).2.2 - (depth + 1)) + 1 := by omega
        rw [hsub, Function.iterate_succ_apply]
        rfl
      · intro j hj
        match j with
        | 0 => simpa using hg
        | j + 1 =>
          rw [Function.iterate_succ_apply]
          exact hmin j (by omega)

/-! ### Agreement of the axiom functions with every enumeration order -/

theorem memList_eq_memSet {l : List String} {facts : Finset String}
    (h : ∀ x, x ∈ l ↔ x ∈ facts) : memList l = memSet facts := by
  funext nf
  simp only [memList, memSet]
  exact decide_eq_decide.mpr (h nf)

theorem axiom1_core_eq {l : List String} {facts : Finset String}
    (h : ∀ x, x ∈ l ↔ x ∈ facts) :
    (axiom1_core l).toFinset = axiom1_parent_ancestor facts := by
  ext a
  simp only [axiom1_core, axiom1_parent_ancestor, List.mem_toFinset,
    Multiset.mem_toFinset, List.mem_filterMap, Multiset.mem_filterMap,
    memList_eq_memSet h, h, Finset.mem_val]

theorem axiom2_core_eq {l : List String} {facts : Finset String}
    (h : ∀ x, x ∈ l ↔ x ∈ facts) :
    (axiom2_core l).toFinset = axiom2_ancestor_transitive facts := by
  ext a
  simp only [axiom2_core, axiom2_ancestor_transitive, ancestorPairs,
    List.mem_toFinset, Multiset.mem_toFinset, List.mem_flatMap,
    Multiset.mem_bind, List.mem_filterMap, Multiset.mem_filterMap,
    memList_eq_memSet h, h, Finset.mem_val]

theorem axiom5_core_eq {l : List String} {facts : Finset String}
    (h : ∀ x, x ∈ l ↔ x ∈ facts) :
    (axiom5_core l).toFinset = axiom5_ancestor_hasdna facts := by
  ext a
  simp only [axiom5_core, axiom5_ancestor_hasdna, List.mem_toFinset,
    Multiset.mem_toFinset, List.mem_filterMap, Multiset.mem_filterMap,
    memList_eq_memSet h, h, Finset.mem_val]

theorem axiom8_core_eq {l : List String} {facts : Finset String}
    (h : ∀ x, x ∈ l ↔ x ∈ facts) :
    (axiom8_core l).toFinset = axiom8_dna_famous_trait facts := by
  ext a
  simp only [axiom8_core, axiom8_dna_famous_trait, List.mem_toFinset,
    Multiset.mem_toFinset, List.mem_flatMap, Multiset.mem_bind,
    List.mem_filterMap, Multiset.mem_filterMap,
    memList_eq_memSet h, h, Finset.mem_val]

theorem axiom10_core_eq {l : List String} {facts : Finset String}
    (h : ∀ x, x ∈ l ↔ x ∈ facts) :
    (axiom10_core l).toFinset = axiom10_sibling_shared_parent facts := by
  have hsp : memList (l.filterMap sharedParentCheck) =
      fun nm => decide (nm ∈ facts.val.filterMap sharedParentCheck) := by
    funext nm
    simp only [memList]
    refine decide_eq_decide.mpr ?_
    simp only [List.mem_filterMap, Multiset.mem_filterMap, h, Finset.mem_val]
  ext a
  simp only [axiom10_core, axiom10_sibling_shared_parent, List.mem_toFinset,
    Multiset.mem_toFinset, List.mem_flatMap, Multiset.mem_bind,
    List.mem_dedup, Multiset.mem_dedup, List.mem_filterMap,
    Multiset.mem_filterMap, Multiset.mem_coe,
    memList_eq_memSet h, hsp, h, Finset.mem_val]

theorem axiom11_core_eq {l : List String} {facts : Finset String}
    (h : ∀ x, x ∈ l ↔ x ∈ facts) :
    (axiom11_core l).toFinset = axiom11_hasdna_symmetric facts := by
  ext a
  simp only [axiom11_core, axiom11_hasdna_symmetric, List.mem_toFinset,
    Multiset.mem_toFinset, List.mem_filterMap, Multiset.mem_filterMap,
    memList_eq_memSet h, h, Finset.mem_val]

theorem axiomsWith_eq {enum : Finset String → List String}
    (h : validEnum enum) : axiomsWith enum = axioms := by
  unfold axiomsWith axioms
  rw [funext fun s => axiom1_core_eq (h s), funext fun s => axiom2_core_eq (h s),
    funext fun s => axiom5_core_eq (h s), funext fun s => axiom8_core_eq (h s),
    funext fun s => axiom10_core_eq (h s), funext fun s => axiom11_core_eq (h s)]

/-! ### Freshness of each axiom's output -/

theorem axiom1_inter (facts : Finset String) :
    axiom1_parent_ancestor facts ∩ facts = ∅ := by
  ext x
  simp only [Finset.mem_inter, Finset.not_mem_empty, iff_false, not_and]
  intro hx hfacts
  obtain ⟨fact, _, hd⟩ :=
    (Multiset.mem_filterMap _ _).mp (Multiset.mem_toFinset.mp hx)
  exact memSet_eq_false (axiom1_derive_fresh hd) hfacts

theorem axiom2_inter (facts : Finset String) :
    axiom2_ancestor_transitive facts ∩ facts = ∅ := by
  ext x
  simp only [Finset.mem_inter, Finset.not_mem_empty, iff_false, not_and]
  intro hx hfacts
  obtain ⟨p, _, hmem⟩ := Multiset.mem_bind.mp (Multiset.mem_toFinset.mp hx)
  obtain ⟨q, _, hd⟩ := (Multiset.mem_filterMap _ _).mp hmem
  exact memSet_eq_false (axiom2_derive_fresh hd) hfacts

theorem axiom5_inter (facts : Finset String) :
    axiom5_ancestor_hasdna facts ∩ facts = ∅ := by
  ext x
  simp only [Finset.mem_inter, Finset.not_mem_empty, iff_false, not_and]
  intro hx hfacts
  obtain ⟨fact, _, hd⟩ :=
    (Multiset.mem_filterMap _ _).mp (Multiset.mem_toFinset.mp hx)
  exact memSet_eq_false (axiom5_derive_fresh hd) hfacts

theorem axiom8_inter (facts : Finset String) :
    axiom8_dna_famous_trait facts ∩ facts = ∅ := by
  ext x
  simp only [Finset.mem_inter, Finset.not_mem_empty, iff_false, not_and]
  intro hx hfacts
  obtain ⟨famous, _, hmem⟩ := Multiset.mem_bind.mp (Multiset.mem_toFinset.mp hx)
  obtain ⟨d, _, hd⟩ := (Multiset.mem_filterMap _ _).mp hmem
  exact memSet_eq_false (axiom8_derive_fresh hd) hfacts

theorem axiom10_inter (facts : Finset String) :
    axiom10_sibling_shared_parent facts ∩ facts = ∅ := by
  ext x
  simp only [Finset.mem_inter, Finset.not_mem_empty, iff_false, not_and]
  intro hx hfacts
  obtain ⟨p, _, hmem⟩ := Multiset.mem_bind.mp (Multiset.mem_toFinset.mp hx)
  exact memSet_eq_false (axiom10_derive_fresh (Multiset.mem_coe.mp hmem)) hfacts

theorem axiom11_inter (facts : Finset String) :
    axiom11_hasdna_symmetric facts ∩ facts = ∅ := by
  ext x
  simp only [Finset.mem_inter, Finset.not_mem_empty, iff_false, not_and]
  intro hx hfacts
  obtain ⟨fact, _, hd⟩ :=
    (Multiset.mem_filterMap _ _).mp (Multiset.mem_toFinset.mp hx)
  exact memSet_eq_false (axiom11_derive_fresh hd) hfacts

/-! ### Claim theorems -/

/-- Claim C1: `solve_forward_chaining` proceeds in depths.  At each depth
every axiom function is applied to the same snapshot of the fact set (so a
permutation of the axiom list yields the same batch of derived facts), the
union of the genuinely new facts is added — the returned fact set is an
iterate of the batch-saturation operator `satStep` — and a run that ends
unsolved before the depth range and the iteration cap are exhausted ends
exactly at a fixed point where no axiom yields any new fact. -/
theorem c1_batch_saturation :
    (∀ (axs₁ axs₂ : List (Finset String → Finset String)) (s : Finset String),
        axs₁.Perm axs₂ → derivedStep axs₁ s = derivedStep axs₂ s) ∧
    (∀ (axs : List (Finset String → Finset String)) (S : Finset String)
        (g : String) (maxD maxI : Nat), ∃ k, k ≤ maxD ∧ k ≤ maxI ∧
        (solve_forward_chaining axs S g maxD maxI 0).2.1 = (satStep axs)^[k] S) ∧
    (∀ (axs : List (Finset String → Finset String)) (S : Finset String)
        (g : String) (maxD maxI cd : Nat),
        (solve_forward_chaining axs S g maxD maxI cd).1 = false →
        (solve_forward_chaining axs S g maxD maxI cd).2.2 < max cd maxD →
        (solve_forward_chaining axs S g maxD maxI cd).2.2 < cd + maxI →
        derivedStep axs (solve_forward_chaining axs S g maxD maxI cd).2.1 = ∅) := by
  refine ⟨fun axs₁ axs₂ s h => derivedStep_perm h s, ?_, ?_⟩
  · intro axs S g maxD maxI
    obtain ⟨k, h1, h2, h3⟩ := solveAux_sat_iterate axs g maxI (maxD - 0) S 0 0 0
    exact ⟨k, by omega, by omega, h3⟩
  · intro axs S g maxD maxI cd hfalse h1 h2
    simp only [solve_forward_chaining] at hfalse h1 h2 ⊢
    exact solveAux_fixed_point axs g maxI (maxD - cd) S cd 0 hfalse (by omega) (by omega)

/-- Witness for C1 at concrete inputs: the batch of one depth is invariant
under reversing the axiom list, and the unsolved run of the six axioms on
`{"Person(Alice)"}` (which stops below both caps) ends at a fixed point. -/
theorem c1_batch_saturation_witness :
    derivedStep axioms.reverse {"Person(Alice)"} = derivedStep axioms {"Person(Alice)"} ∧
    derivedStep axioms
      (solve_forward_chaining axioms {"Person(Alice)"} "X" 2 30 0).2.1 = ∅ :=
  ⟨c1_batch_saturation.1 _ _ _ (List.reverse_perm axioms),
    c1_batch_saturation.2.2 axioms {"Person(Alice)"} "X" 2 30 0
      (by decide) (by decide) (by decide)⟩

/-- Claim C2 is false as stated: `solve_forward_chaining` returns no
ordered sequence of rule applications at all (its result is a
`(solved, facts, depth)` triple), and the only number it returns on
success, the depth, is not the length of a minimal derivation: on
`{Ancestor(a,b), Ancestor(b,c), Parent(c,d)}` with goal `Ancestor(a,d)`
the solver succeeds reporting depth 2, yet no sequence of at most two rule
applications derives the goal (a three-step sequence does). -/
theorem c2_counterexample :
    (solve_forward_chaining axioms {"Ancestor(a,b)", "Ancestor(b,c)", "Parent(c,d)"}
        "Ancestor(a,d)" 10 30 0).1 = true ∧
    (solve_forward_chaining axioms {"Ancestor(a,b)", "Ancestor(b,c)", "Parent(c,d)"}
        "Ancestor(a,d)" 10 30 0).2.2 = 2 ∧
    ((seqsUpTo 2 axioms).all fun seq =>
      decide ("Ancestor(a,d)" ∉
        applyRuleSeq_spec seq {"Ancestor(a,b)", "Ancestor(b,c)", "Parent(c,d)"})) = true ∧
    "Ancestor(a,d)" ∈ applyRuleSeq_spec
        [axiom1_parent_ancestor, axiom2_ancestor_transitive, axiom2_ancestor_transitive]
        {"Ancestor(a,b)", "Ancestor(b,c)", "Parent(c,d)"} :=
  ⟨by decide, by decide, by decide, by decide⟩

/-- Claim C2 amended: on success (with a goal not already given), the
solver returns the `satStep`-saturation of the initial facts after the
returned number of batch rounds, and that number is minimal — no smaller
number of batch-saturation rounds reaches the goal.  It returns no
sequence of individual rule applications, and its depth count can be
smaller than every such derivation (see the counterexample). -/
theorem c2_amended :
    ∀ (axs : List (Finset String → Finset String)) (S : Finset String)
      (g : String) (maxD maxI : Nat),
      g ∉ S → (solve_forward_chaining axs S g maxD maxI 0).1 = true →
      ((solve_forward_chaining axs S g maxD maxI 0).2.1 =
          (satStep axs)^[(solve_forward_chaining axs S g maxD maxI 0).2.2] S ∧
        g ∈ (solve_forward_chaining axs S g maxD maxI 0).2.1 ∧
        ∀ j, j < (solve_forward_chaining axs S g maxD maxI 0).2.2 →
          g ∉ (satStep axs)^[j] S) := by
  intro axs S g maxD maxI hg htrue
  have h := solveAux_success_min axs g maxI (maxD - 0) S 0 0 hg htrue
  simpa [solve_forward_chaining] using h

/-- Witness for C2's amended theorem at the counterexample input. -/
theorem c2_amended_witness :
    "Ancestor(a,d)" ∈ (solve_forward_chaining axioms
      {"Ancestor(a,b)", "Ancestor(b,c)", "Parent(c,d)"} "Ancestor(a,d)" 10 30 0).2.1 :=
  (c2_amended axioms {"Ancestor(a,b)", "Ancestor(b,c)", "Parent(c,d)"} "Ancestor(a,d)"
    10 30 (by decide) (by decide)).2.1

/-- Claim C3 is false as stated: the two failure modes are not distinct
values.  An exhausted run (the six axioms reach a fixed point on
`{"Person(Alice)"}`, as the third conjunct shows) and an aborted run (the
iteration budget is 0, so the cap is hit on loop entry) return exactly the
same `(False, facts, depth)` triple, so the caller cannot tell them
apart. -/
theorem c3_counterexample :
    solve_forward_chaining axioms {"Person(Alice)"} "X" 3 30 0 =
      (false, {"Person(Alice)"}, 1) ∧
    solve_forward_chaining axioms {"Person(Alice)"} "X" 5 0 1 =
      (false, {"Person(Alice)"}, 1) ∧
    derivedStep axioms {"Person(Alice)"} = ∅ :=
  ⟨by decide, by decide, by decide⟩

/-- Claim C3 amended: on failure the solver returns a plain
`(solved, facts, depth)` triple with no failure marker.  Hitting the
iteration cap at loop entry returns `(goal membership, facts, current_depth)`
while stopping at a fixed point returns
`(goal membership, facts, current_depth + 1)`; the shapes coincide and can
collide across runs, so "exhausted" and "aborted" are not distinguished. -/
theorem c3_amended :
    ∀ (axs : List (Finset String → Finset String)) (S : Finset String)
      (g : String) (maxD maxI cd : Nat),
      (cd < maxD → maxI = 0 →
        solve_forward_chaining axs S g maxD maxI cd = (decide (g ∈ S), S, cd)) ∧
      (cd < maxD → 0 < maxI → derivedStep axs S = ∅ →
        solve_forward_chaining axs S g maxD maxI cd = (decide (g ∈ S), S, cd + 1)) := by
  intro axs S g maxD maxI cd
  constructor
  · intro hcd hmi
    subst hmi
    obtain ⟨f, hf⟩ : ∃ f, maxD - cd = f + 1 := ⟨maxD - cd - 1, by omega⟩
    simp only [solve_forward_chaining, hf, solveAux]
    rw [if_pos (Nat.le_refl 0)]
  · intro hcd hmi hds
    obtain ⟨f, hf⟩ : ∃ f, maxD - cd = f + 1 := ⟨maxD - cd - 1, by omega⟩
    simp only [solve_forward_chaining, hf, solveAux]
    rw [if_neg (by omega), if_pos hds]

/-- Witness for C3's amended theorem: the aborted run (budget 0) and the
exhausted run (fixed point) from the counterexample, with their returned
triples as the theorem predicts. -/
theorem c3_amended_witness :
    solve_forward_chaining axioms {"Person(Alice)"} "X" 5 0 1 =
      (decide (("X" : String) ∈ ({"Person(Alice)"} : Finset String)),
        ({"Person(Alice)"} : Finset String), 1) ∧
    solve_forward_chaining axioms {"Person(Alice)"} "X" 3 30 0 =
      (decide (("X" : String) ∈ ({"Person(Alice)"} : Finset String)),
        ({"Person(Alice)"} : Finset String), 0 + 1) :=
  ⟨(c3_amended axioms {"Person(Alice)"} "X" 5 0 1).1 (by decide) rfl,
    (c3_amended axioms {"Person(Alice)"} "X" 3 30 0).2 (by decide) (by decide) (by decide)⟩

/-- Claim C4 is false as stated: with the goal already in the initial fact
set the solver does not return immediately with zero steps.  On
`{"Parent(Alice, Bob)"}` with that very fact as goal it runs the
saturation loop to a fixed point, returns depth 4 (not 0), and a fact set
strictly larger than the initial one. -/
theorem c4_counterexample :
    "Parent(Alice, Bob)" ∈ ({"Parent(Alice, Bob)"} : Finset String) ∧
    (solve_forward_chaining axioms {"Parent(Alice, Bob)"}
        "Parent(Alice, Bob)" 10 30 0).2.2 = 4 ∧
    (solve_forward_chaining axioms {"Parent(Alice, Bob)"}
        "Parent(Alice, Bob)" 10 30 0).2.1 ≠ {"Parent(Alice, Bob)"} := by
  decide

/-- Claim C4 amended: when the target goal is already a member of the
initial fact set, the solver does report success (`solved = True`) — via
the membership check after the loop, not an immediate return — for every
choice of axioms and limits. -/
theorem c4_amended :
    ∀ (axs : List (Finset String → Finset String)) (S : Finset String)
      (g : String) (maxD maxI cd : Nat),
      g ∈ S → (solve_forward_chaining axs S g maxD maxI cd).1 = true := by
  intro axs S g maxD maxI cd hg
  exact solveAux_mem_true axs g maxI (maxD - cd) S cd 0 cd hg

/-- Witness for C4's amended theorem at the counterexample input. -/
theorem c4_amended_witness :
    (solve_forward_chaining axioms {"Parent(Alice, Bob)"}
      "Parent(Alice, Bob)" 10 30 0).1 = true :=
  c4_amended axioms {"Parent(Alice, Bob)"} "Parent(Alice, Bob)" 10 30 0 (by decide)

/-- Claim C5: with the six axiom functions of the repository the solver is
total — on every fact set (malformed strings included) and all limits it
returns a `(solved, facts, depth)` triple whose depth is bounded:
at least `current_depth`, at most `max(current_depth, max_depth)`, and at
most `current_depth + max_iterations` (the loop runs at most
`max_iterations` rounds).  Totality of each axiom function on arbitrary
string fact sets is witnessed by these universally quantified bounds
being provable at all. -/
theorem c5_termination_bounds :
    axioms.length = 6 ∧
    ∀ (S : Finset String) (g : String) (maxD maxI cd : Nat),
      cd ≤ (solve_forward_chaining axioms S g maxD maxI cd).2.2 ∧
      (solve_forward_chaining axioms S g maxD maxI cd).2.2 ≤ max cd maxD ∧
      (solve_forward_chaining axioms S g maxD maxI cd).2.2 ≤ cd + maxI := by
  refine ⟨rfl, ?_⟩
  intro S g maxD maxI cd
  have h := solveAux_depth_bounds axioms g maxI (maxD - cd) S cd 0 cd (Nat.le_refl _)
  simp only [solve_forward_chaining]
  exact ⟨h.1, by omega, by omega⟩

/-- Claim C6 is false as stated: the default of the `max_iterations`
safety cap in `solve_forward_chaining` is 30, not 10,000. -/
theorem c6_counterexample :
    max_iterations_default = 30 ∧ max_iterations_default ≠ 10000 := by
  decide

/-- Claim C6 amended: the step budget is a configurable parameter of
`solve_forward_chaining` whose default is the positive integer 30 (the
script always relies on the default). -/
theorem c6_amended :
    0 < max_iterations_default ∧ max_iterations_default = 30 ∧
    ∀ (axs : List (Finset String → Finset String)) (S : Finset String)
      (g : String) (maxD : Nat),
      solve_forward_chaining_defaults axs S g maxD =
        solve_forward_chaining axs S g maxD 30 0 :=
  ⟨by decide, rfl, fun _ _ _ _ => rfl⟩

/-- Claim C7: each axiom function only reads its argument and returns a
fresh set — its output is disjoint from the input fact set (every derived
fact passes the `not in facts` check), so the argument value is never
altered; the solver itself works on the copy `set(initial_facts_state)`
and, in this pure embedding, is a function of the argument's value. -/
theorem c7_axioms_read_only :
    ∀ facts : Finset String,
      axiom1_parent_ancestor facts ∩ facts = ∅ ∧
      axiom2_ancestor_transitive facts ∩ facts = ∅ ∧
      axiom5_ancestor_hasdna facts ∩ facts = ∅ ∧
      axiom8_dna_famous_trait facts ∩ facts = ∅ ∧
      axiom10_sibling_shared_parent facts ∩ facts = ∅ ∧
      axiom11_hasdna_symmetric facts ∩ facts = ∅ :=
  fun facts =>
    ⟨axiom1_inter facts, axiom2_inter facts, axiom5_inter facts,
      axiom8_inter facts, axiom10_inter facts, axiom11_inter facts⟩

/-- Claim C8: the solver is deterministic.  Any two enumerations of the
fact sets (any two iteration orders of the Python sets) give the same six
axiom functions and hence identical solver results on equal inputs; the
canonical enumeration recovers the program's `axioms` list itself. -/
theorem c8_deterministic :
    axiomsWith (fun s => s.toList) = axioms ∧
    ∀ enum₁ enum₂, validEnum enum₁ → validEnum enum₂ →
      ∀ (S : Finset String) (g : String) (maxD maxI cd : Nat),
        solve_forward_chaining (axiomsWith enum₁) S g maxD maxI cd =
          solve_forward_chaining (axiomsWith enum₂) S g maxD maxI cd := by
  constructor
  · exact axiomsWith_eq fun s x => Finset.mem_toList
  · intro e1 e2 h1 h2 S g maxD maxI cd
    rw [axiomsWith_eq h1, axiomsWith_eq h2]

/-- Witness for C8 at concrete inputs: iterating the fact sets in the
canonical order and in the reversed order gives the same run on the
script's inputs. -/
theorem c8_deterministic_witness :
    solve_forward_chaining (axiomsWith fun s => s.toList) initial_facts goal 3 30 0 =
      solve_forward_chaining (axiomsWith fun s => s.toList.reverse)
        initial_facts goal 3 30 0 :=
  c8_deterministic.2 (fun s => s.toList) (fun s => s.toList.reverse)
    (fun s x => Finset.mem_toList)
    (fun s x => by rw [List.mem_reverse]; exact Finset.mem_toList)
    initial_facts goal 3 30 0

/-- Claim C9: the returned `solved` flag is true exactly when the target
goal is a member of the returned final fact set (both the early return on
deriving the goal and the membership test after the loop preserve this). -/
theorem c9_solved_iff_goal_mem :
    ∀ (axs : List (Finset String → Finset String)) (S : Finset String)
      (g : String) (maxD maxI cd : Nat),
      (solve_forward_chaining axs S g maxD maxI cd).1 =
        decide (g ∈ (solve_forward_chaining axs S g maxD maxI cd).2.1) := by
  intro axs S g maxD maxI cd
  exact solveAux_solved_iff axs g maxI (maxD - cd) S cd 0 cd

/-- Claim C10: the known fact set only grows — the returned fact set
contains the initial one — and every axiom function returns only facts
disjoint from its input set. -/
theorem c10_growth :
    (∀ (axs : List (Finset String → Finset String)) (S : Finset String)
        (g : String) (maxD maxI cd : Nat),
        S ⊆ (solve_forward_chaining axs S g maxD maxI cd).2.1) ∧
    ∀ facts : Finset String,
      Disjoint (axiom1_parent_ancestor facts) facts ∧
      Disjoint (axiom2_ancestor_transitive facts) facts ∧
      Disjoint (axiom5_ancestor_hasdna facts) facts ∧
      Disjoint (axiom8_dna_famous_trait facts) facts ∧
      Disjoint (axiom10_sibling_shared_parent facts) facts ∧
      Disjoint (axiom11_hasdna_symmetric facts) facts := by
  refine ⟨fun axs S g maxD maxI cd => solveAux_superset axs g maxI (maxD - cd) S cd 0 cd, ?_⟩
  intro facts
  exact ⟨Finset.disjoint_iff_inter_eq_empty.mpr (axiom1_inter facts),
    Finset.disjoint_iff_inter_eq_empty.mpr (axiom2_inter facts),
    Finset.disjoint_iff_inter_eq_empty.mpr (axiom5_inter facts),
    Finset.disjoint_iff_inter_eq_empty.mpr (axiom8_inter facts),
    Finset.disjoint_iff_inter_eq_empty.mpr (axiom10_inter facts),
    Finset.disjoint_iff_inter_eq_empty.mpr (axiom11_inter facts)⟩

end MathAI
